import Mathlib

/-!
Shallow embedding of the ReflexRuntime exception-to-patch orchestration core
(`reflexruntime/core/orchestrator.py`, `llm_client.py`, `debug_logger.py`,
`schemas.py`).

Python values held in a module namespace are modelled by `PyVal`; a namespace
(`module.__dict__`) is an association list.  `exec` of model-generated source
is an external interpreter primitive, so it enters the embedding as an oracle
`ExecSem`; Python guarantees that a syntactically invalid source raises
`SyntaxError` at compile time, before any statement runs, which the oracle
models with the `syntaxError` outcome (namespace untouched).  File I/O is
modelled as succeeding: the log directory is an association list from file
name to file content, and a write with an existing name overwrites (CPython
`open(path, "w")` semantics).
-/

namespace ReflexRuntime

/-- A Python runtime value as far as the applier can observe it: `None`,
a callable object, or any other (non-callable, non-`None`) object.  The
`Nat` tag distinguishes individual objects. -/
inductive PyVal where
  | pyNone
  | callable (id : Nat)
  | obj (id : Nat)
deriving DecidableEq, Repr

/-- Model of `callable(v)` in Python, restricted to the observations `PyVal` makes. -/
def PyVal.isCallable : PyVal → Bool
  | .callable _ => true
  | _ => false

/-- A module namespace (`module.__dict__`): names bound to values.  CPython
dict keys are unique; lookup takes the first matching entry. -/
abbrev Namespace := List (String × PyVal)

/-- Model of `getattr(namespace, k, None)`-style lookup, as an `Option`. -/
def nsGet (ns : Namespace) (k : String) : Option PyVal :=
  (ns.find? (fun kv => kv.1 = k)).map (fun kv => kv.2)

/-- Model of `hasattr(namespace, k)`: true when the name is bound (even to `None`). -/
def hasattrNs (ns : Namespace) (k : String) : Bool :=
  (nsGet ns k).isSome

/-! ### `SimpleOrchestrator._extract_function_name`

The source uses `re.search(r"def\s+([a-zA-Z_][a-zA-Z0-9_]*)\s*\(", patch_code)`:
the leftmost position at which the literal `def`, one or more whitespace
characters, an identifier and an opening parenthesis (after optional
whitespace) match.  Since no identifier character is whitespace and `(` is
neither, the greedy quantifiers never backtrack, so maximal munch is exact. -/

/-- Python's `\s` class: space, tab, newline, carriage return, vertical tab,
form feed. -/
def isPySpace (c : Char) : Bool :=
  c = ' ' || c = '\t' || c = '\n' || c = '\r' || c = '\x0b' || c = '\x0c'

/-- Model of `[a-zA-Z_]` (ASCII, as in the source's regex), by code point. -/
def isIdentStart (c : Char) : Bool :=
  (97 ≤ c.toNat && c.toNat ≤ 122) || (65 ≤ c.toNat && c.toNat ≤ 90) || c.toNat = 95

/-- Model of `[a-zA-Z0-9_]` (ASCII), by code point. -/
def isIdentChar (c : Char) : Bool :=
  isIdentStart c || (48 ≤ c.toNat && c.toNat ≤ 57)

/-- Does `pat` occur literally at the head of `cs`? -/
def startsWithChars : List Char → List Char → Bool
  | [], _ => true
  | _ :: _, [] => false
  | p :: ps, c :: cs => p = c && startsWithChars ps cs

/-- Try to match `def\s+([a-zA-Z_][a-zA-Z0-9_]*)\s*\(` anchored at the head
of `cs`; return the captured identifier. -/
def tryDefAt (cs : List Char) : Option String :=
  if startsWithChars "def".data cs then
    let r := cs.drop 3
    let r2 := r.dropWhile isPySpace
    -- `\s+` needs at least one whitespace character
    if r2.length = r.length then none
    else
      match r2 with
      | [] => none
      | c :: _ =>
        if isIdentStart c then
          let name := r2.takeWhile isIdentChar
          let rest := (r2.drop name.length).dropWhile isPySpace
          match rest with
          | '(' :: _ => some (String.mk name)
          | _ => none
        else none
  else none

/-- Leftmost `re.search` over all start positions. -/
def searchDef : List Char → Option String
  | [] => none
  | c :: cs =>
    match tryDefAt (c :: cs) with
    | some n => some n
    | none => searchDef cs

/-- Model of `SimpleOrchestrator._extract_function_name`: first function-definition
header's name in the patch text, `None` if absent. -/
def extractFunctionName (patch_code : String) : Option String :=
  searchDef patch_code.data

/-! ### `SimpleOrchestrator._apply_llm_patch` -/

/-- Outcome of `exec(patch_code, namespace.__dict__)`.  A `syntaxError`
happens at compile time, before execution, so the namespace is unchanged;
`raised` is a runtime exception escaping the executed statements, with the
namespace as mutated up to that point; `ok` is normal completion. -/
inductive ExecOutcome where
  | syntaxError
  | ok (ns : Namespace)
  | raised (ns : Namespace)

/-- The Python interpreter's `exec` as an oracle: patch source and namespace
in, outcome out. -/
abbrev ExecSem := String → Namespace → ExecOutcome

/-- The post-`exec` verification at the end of `_apply_llm_patch`:
`new_func = getattr(namespace, func_name, None); if new_func is None: return
False; ...; return True`.  Note the source checks only `is None`; it never
calls `callable` on the new binding. -/
def postVerify (ns : Namespace) (fname : String) : Bool × Option Namespace :=
  match nsGet ns fname with
  | none => (false, some ns)
  | some PyVal.pyNone => (false, some ns)
  | some _ => (true, some ns)

/-- Model of `SimpleOrchestrator._apply_llm_patch(error_context, patch_proposal)`,
with the namespace `_get_function_namespace` resolved to passed in as
`nsOpt` (`none` models the resolver returning `None`).  Returns the Python
boolean result together with the namespace after the call.

Control-flow note transcribed from the source: the `try` around `exec` has
`except Exception` **before** `except SyntaxError`; in Python `SyntaxError`
is a subclass of `Exception`, so a compile error of the patch is caught by
the first clause, whose handler proceeds when `hasattr(namespace,
func_name)` still holds — the dedicated `except SyntaxError: return False`
clause is unreachable. -/
def applyLLMPatch (execSem : ExecSem) (patch_code : String)
    (nsOpt : Option Namespace) : Bool × Option Namespace :=
  match extractFunctionName patch_code with
  | none => (false, nsOpt)
  | some fname =>
    match nsOpt with
    | none => (false, none)
    | some ns =>
      if hasattrNs ns fname then
        match execSem patch_code ns with
        | .syntaxError =>
          -- caught by `except Exception`; namespace unchanged, so the
          -- pre-existing binding keeps `hasattr` true and control falls
          -- through to the final verification
          if hasattrNs ns fname then postVerify ns fname else (false, some ns)
        | .raised ns' =>
          if hasattrNs ns' fname then postVerify ns' fname else (false, some ns')
        | .ok ns' => postVerify ns' fname
      else (false, some ns)

/-! ### JSON values and `json.loads`

`llm_client.py` parses the model reply with Python's `json` module.  The
embedding carries exact rationals for JSON numbers (CPython parses
fractional/exponent literals to doubles; the claims under study only involve
short decimal literals, which the claims compare exactly).  The parser below
follows the strict RFC 8259 grammar that `json.loads` accepts: no leading
zeros, no trailing data, no raw control characters inside strings, the
standard escapes. -/

/-- An exact decimal number `mant × 10 ^ exp10`, the value a JSON numeric
literal or a Python `float(...)` call denotes.  Exact decimals keep every
computation in integer arithmetic; `JNum.toRat` gives the numeric value for
specification statements. -/
structure JNum where
  mant : Int
  exp10 : Int
deriving DecidableEq, Repr

/-- Numeric value of an exact decimal. -/
def JNum.toRat (n : JNum) : ℚ := (n.mant : ℚ) * (10 : ℚ) ^ n.exp10

inductive Json where
  | null
  | bool (b : Bool)
  | num (q : JNum)
  | str (s : String)
  | arr (xs : List Json)
  | obj (kvs : List (String × Json))

/-- JSON whitespace as accepted between tokens by `json.loads`. -/
def isJsonWs (c : Char) : Bool :=
  c = ' ' || c = '\t' || c = '\n' || c = '\r'

def skipWsJ (cs : List Char) : List Char := cs.dropWhile isJsonWs

def hexDigitVal (c : Char) : Option Nat :=
  let n := c.toNat
  if 48 ≤ n && n ≤ 57 then some (n - 48)
  else if 97 ≤ n && n ≤ 102 then some (n - 87)
  else if 65 ≤ n && n ≤ 70 then some (n - 55)
  else none

def digitsVal (ds : List Char) : Nat :=
  ds.foldl (fun a c => 10 * a + (c.toNat - 48)) 0

/-- Body of a JSON string after the opening quote; `acc` is reversed. -/
def parseStringBody (fuel : Nat) (acc : List Char) (cs : List Char) :
    Option (String × List Char) :=
  match fuel with
  | 0 => none
  | fuel + 1 =>
    match cs with
    | [] => none
    | '"' :: rest => some (String.mk acc.reverse, rest)
    | '\\' :: e :: rest =>
      match e with
      | '"' => parseStringBody fuel ('"' :: acc) rest
      | '\\' => parseStringBody fuel ('\\' :: acc) rest
      | '/' => parseStringBody fuel ('/' :: acc) rest
      | 'b' => parseStringBody fuel ('\x08' :: acc) rest
      | 'f' => parseStringBody fuel ('\x0c' :: acc) rest
      | 'n' => parseStringBody fuel ('\n' :: acc) rest
      | 'r' => parseStringBody fuel ('\r' :: acc) rest
      | 't' => parseStringBody fuel ('\t' :: acc) rest
      | 'u' =>
        match rest with
        | h1 :: h2 :: h3 :: h4 :: rest2 =>
          match hexDigitVal h1, hexDigitVal h2, hexDigitVal h3, hexDigitVal h4 with
          | some a, some b, some c, some d =>
            parseStringBody fuel (Char.ofNat (4096 * a + 256 * b + 16 * c + d) :: acc) rest2
          | _, _, _, _ => none
        | _ => none
      | _ => none
    | c :: rest =>
      if c.toNat < 0x20 then none
      else parseStringBody fuel (c :: acc) rest

/-- Optional `.digits` fraction part: the digits' value, their count, and
the rest of the input. -/
def parseFrac (cs : List Char) : Option (Nat × Nat × List Char) :=
  match cs with
  | '.' :: fr =>
    let fds := fr.takeWhile Char.isDigit
    if fds.isEmpty then none
    else some (digitsVal fds, fds.length, fr.drop fds.length)
  | _ => some (0, 0, cs)

/-- Optional `[eE][+-]?digits` exponent part of a JSON number. -/
def parseExpPart (cs : List Char) : Option (Int × List Char) :=
  match cs with
  | c :: r =>
    if c = 'e' || c = 'E' then
      let (sgn, r2) :=
        match r with
        | '+' :: r3 => ((1 : Int), r3)
        | '-' :: r3 => ((-1 : Int), r3)
        | _ => ((1 : Int), r)
      let eds := r2.takeWhile Char.isDigit
      if eds.isEmpty then none
      else some (sgn * (digitsVal eds : Int), r2.drop eds.length)
    else some (0, cs)
  | [] => some (0, [])

/-- Magnitude part of a JSON number literal (strict grammar: no leading
zeros), as an exact decimal carrying the already-consumed sign. -/
def parseNumMag (neg : Bool) (cs1 : List Char) : Option (JNum × List Char) :=
  let ids := cs1.takeWhile Char.isDigit
  match ids with
  | [] => none
  | d0 :: drest =>
    if d0 = '0' && !drest.isEmpty then none
    else
      match parseFrac (cs1.drop ids.length) with
      | none => none
      | some (fv, k, cs2) =>
        match parseExpPart cs2 with
        | none => none
        | some (e, cs3) =>
          let m : Int := (digitsVal ids * 10 ^ k + fv : Nat)
          some (⟨if neg then -m else m, e - k⟩, cs3)

/-- A JSON number literal. -/
def parseNumber (cs : List Char) : Option (JNum × List Char) :=
  match cs with
  | '-' :: tl => parseNumMag true tl
  | _ => parseNumMag false cs

mutual

/-- One JSON value, whitespace-tolerant on the left. -/
def parseVal : Nat → List Char → Option (Json × List Char)
  | 0, _ => none
  | fuel + 1, cs =>
    match skipWsJ cs with
    | [] => none
    | c :: rest =>
      if c = 'n' then
        if startsWithChars "ull".data rest then some (.null, rest.drop 3) else none
      else if c = 't' then
        if startsWithChars "rue".data rest then some (.bool true, rest.drop 3) else none
      else if c = 'f' then
        if startsWithChars "alse".data rest then some (.bool false, rest.drop 4) else none
      else if c = '"' then
        (parseStringBody (rest.length + 1) [] rest).map (fun sr => (.str sr.1, sr.2))
      else if c = '-' || c.isDigit then
        (parseNumber (c :: rest)).map (fun qr => (.num qr.1, qr.2))
      else if c = '[' then
        match skipWsJ rest with
        | ']' :: r2 => some (.arr [], r2)
        | r2 => (parseElems fuel r2).map (fun er => (.arr er.1, er.2))
      else if c = '{' then
        match skipWsJ rest with
        | '}' :: r2 => some (.obj [], r2)
        | r2 => (parseMembers fuel r2).map (fun mr => (.obj mr.1, mr.2))
      else none

/-- Array elements, positioned at the start of an element. -/
def parseElems : Nat → List Char → Option (List Json × List Char)
  | 0, _ => none
  | fuel + 1, cs =>
    match parseVal fuel cs with
    | none => none
    | some (v, rest) =>
      match skipWsJ rest with
      | ',' :: r2 => (parseElems fuel r2).map (fun er => (v :: er.1, er.2))
      | ']' :: r2 => some ([v], r2)
      | _ => none

/-- Object members, positioned at the start of a `"key": value` pair. -/
def parseMembers : Nat → List Char → Option (List (String × Json) × List Char)
  | 0, _ => none
  | fuel + 1, cs =>
    match skipWsJ cs with
    | '"' :: rest =>
      match parseStringBody (rest.length + 1) [] rest with
      | none => none
      | some (k, r2) =>
        match skipWsJ r2 with
        | ':' :: r3 =>
          match parseVal fuel r3 with
          | none => none
          | some (v, r4) =>
            match skipWsJ r4 with
            | ',' :: r5 => (parseMembers fuel r5).map (fun mr => ((k, v) :: mr.1, mr.2))
            | '}' :: r5 => some ([(k, v)], r5)
            | _ => none
        | _ => none
    | _ => none

end

/-- Model of `json.loads`: parse one value and reject trailing non-whitespace. -/
def jsonLoads (s : String) : Option Json :=
  match parseVal (s.length + 2) s.data with
  | some (j, rest) => if (skipWsJ rest).isEmpty then some j else none
  | none => none

/-- Model of `dict.get` on a parsed object.  CPython keeps the **last** occurrence of
a duplicated key, hence the reversed search. -/
def jget (kvs : List (String × Json)) (k : String) : Option Json :=
  (kvs.reverse.find? (fun kv => kv.1 = k)).map (fun kv => kv.2)

/-! ### `LLMClient.analyze_exception_and_generate_patch_with_raw` -/

/-- Model of `float(x)` on a parsed JSON value: numbers pass through, booleans become
0/1, numeric strings are parsed, everything else raises
(`TypeError`/`ValueError`), modelled as `none`. -/
def parsePyFloat (s : String) : Option JNum :=
  let cs := (s.data.dropWhile isPySpace).reverse.dropWhile isPySpace |>.reverse
  let (neg, cs1) :=
    match cs with
    | '-' :: r => (true, r)
    | '+' :: r => (false, r)
    | _ => (false, cs)
  let ids := cs1.takeWhile Char.isDigit
  let cs2 := cs1.drop ids.length
  match cs2 with
  | '.' :: fr =>
    let fds := fr.takeWhile Char.isDigit
    if ids.isEmpty && fds.isEmpty then none
    else
      match parseExpPart (fr.drop fds.length) with
      | some (e, []) =>
        let m : Int := (digitsVal ids * 10 ^ fds.length + digitsVal fds : Nat)
        some ⟨if neg then -m else m, e - fds.length⟩
      | _ => none
  | _ =>
    if ids.isEmpty then none
    else
      match parseExpPart cs2 with
      | some (e, []) =>
        let m : Int := (digitsVal ids : Nat)
        some ⟨if neg then -m else m, e⟩
      | _ => none

def pyFloat : Json → Option JNum
  | .num q => some q
  | .bool b => some ⟨if b then 1 else 0, 0⟩
  | .str s => parsePyFloat s
  | _ => none

/-- Model of `schemas.PatchProposal`.  The class-level defaults (`confidence: float =
0.8`, `test_cases: List[str] = []`) are the structure's field defaults. -/
structure PatchProposal where
  patch_code : String
  explanation : String
  confidence : JNum := ⟨8, -1⟩
  test_cases : List String := []
deriving DecidableEq, Repr

/-- All-strings check on a parsed `test_cases` array. -/
def asStringList : List Json → Option (List String)
  | [] => some []
  | .str s :: rest => (asStringList rest).map (fun l => s :: l)
  | _ => none

/-- The `PatchProposal(...)` construction the generator performs on a parsed
payload:

  `PatchProposal(patch_code=d.get("patch_code", ""),
explanation=d.get("explanation", ""), confidence=float(d.get("confidence",
0.5)), test_cases=d.get("test_cases", []))`.

`none` models the constructions that raise in Python: a non-`dict` payload
(`AttributeError` at `.get`), a `confidence` value `float()` rejects
(`TypeError`/`ValueError`), or field values the schema's types reject.  Each
such exception is converted to an overall `None` by the generator (the
first-parse path reaches the outer `except Exception`; the recovery path is
caught either there or by its own `except (JSONDecodeError, AttributeError)`). -/
def mkProposal (j : Json) : Option PatchProposal :=
  match j with
  | .obj kvs =>
    let pc := (jget kvs "patch_code").getD (.str "")
    let ex := (jget kvs "explanation").getD (.str "")
    let cf := (jget kvs "confidence").getD (.num ⟨5, -1⟩)
    let tc := (jget kvs "test_cases").getD (.arr [])
    match pc, ex, tc with
    | .str pcs, .str exs, .arr tcl =>
      match pyFloat cf, asStringList tcl with
      | some c, some tcs =>
        some { patch_code := pcs, explanation := exs, confidence := c, test_cases := tcs }
      | _, _ => none
    | _, _, _ => none
  | _ => none

/-- The lazy group of `re.search(r"```json\s*(\{.*?\})\s*```", text,
re.DOTALL)` once positioned after `\{`: extend the group one character at a
time, stopping at the first `}` that is followed (modulo whitespace) by
closing backticks.  `acc` holds the group so far, reversed. -/
def fencedGroup (acc : List Char) : List Char → Option (List Char)
  | [] => none
  | c :: rest =>
    if c = '}' && startsWithChars "```".data (rest.dropWhile isPySpace) then
      some (('}' :: acc).reverse)
    else fencedGroup (c :: acc) rest

/-- Anchored attempt of the fenced-block pattern at the head of `cs`. -/
def tryFenceAt (cs : List Char) : Option String :=
  if startsWithChars "```json".data cs then
    match (cs.drop 7).dropWhile isPySpace with
    | '{' :: tail => (fencedGroup ['{'] tail).map String.mk
    | _ => none
  else none

/-- Leftmost-start search of the fenced pattern, as `re.search` performs. -/
def searchFenced : List Char → Option String
  | [] => none
  | c :: cs =>
    match tryFenceAt (c :: cs) with
    | some s => some s
    | none => searchFenced cs

/-- The recovery regex of the generator: first fenced `json` block's brace
group within the reply text. -/
def searchFencedJson (s : String) : Option String := searchFenced s.data

/-- Model of `str.strip()` on the model reply (whitespace only). -/
def pyStrip (s : String) : String :=
  String.mk (((s.data.dropWhile isPySpace).reverse.dropWhile isPySpace).reverse)

/-- Model of `LLMClient.analyze_exception_and_generate_patch_with_raw`, with the
chat-completion transport abstracted to its outcome: `Except.error` models
the API call raising (network/API error), `Except.ok content` models a reply
whose message content is `content`.  Mirrors the source's nested `try`
blocks: direct `json.loads` first, then the fenced-block recovery, with
every failure mode collapsing to `none`. -/
def analyzeWithRaw (transport : Except String String) :
    Option (PatchProposal × String) :=
  match transport with
  | .error _ => none
  | .ok content =>
    let response_text := pyStrip content
    match jsonLoads response_text with
    | some j =>
      match mkProposal j with
      | some p => some (p, response_text)
      | none => none
    | none =>
      match searchFencedJson response_text with
      | some grp =>
        match jsonLoads grp with
        | some j =>
          match mkProposal j with
          | some p => some (p, response_text)
          | none => none
        | none => none
      | none => none

/-! ### `schemas.ErrorContext` -/

/-- Model of `schemas.ErrorContext`: the structured snapshot of one failure. -/
structure ErrorContext where
  exception_type : String
  exception_message : String
  traceback_str : String
  target_fqn : String
  source_code : String
  file_path : String
  line_number : Nat
  local_vars : List (String × PyVal)
deriving DecidableEq, Repr

/-- The information `from_traceback` reads off a live traceback object and
its innermost frame: code object's file and name, the frame's
`__name__` global (absent when the frame's globals lack it), the failing
line, and the locals snapshot (`none` models `dict(frame.f_locals)`
raising, which the source absorbs into `\x7b\x7d`). -/
structure Traceback where
  co_filename : String
  co_name : String
  moduleName : Option String
  tb_lineno : Nat
  localsSnapshot : Option (List (String × PyVal))

/-- Model of `str.rstrip()` (whitespace only). -/
def pyRstrip (s : String) : String :=
  String.mk (s.data.reverse.dropWhile isPySpace).reverse

/-- The source window loop of `from_traceback`: lines
`range(max(1, line_number - 2), line_number + 3)` from the line cache,
skipping lines the cache does not have (`linecache.getline` returns `""`
then), with the failing line marked.  `getline` is the line-cache oracle,
returning `""` for missing files and lines exactly as `linecache` does. -/
def sourceWindow (getline : String → Nat → String) (file : String) (ln : Nat) : String :=
  let lo := max 1 (ln - 2)
  let idxs := (List.range (ln + 3 - lo)).map (fun i => lo + i)
  let lines := idxs.filterMap (fun i =>
    let line := getline file i
    if line = "" then none
    else some ((if i = ln then ">>> " else "    ") ++ toString i ++ ": " ++ pyRstrip line))
  String.intercalate "\n" lines

/-- Model of `ErrorContext.from_traceback(exc_type, exc_value, tb)`.  `excName`
models `exc_type.__name__`, `excMsg` models `str(exc_value)`; `formatExc`
is the text `traceback.format_exception` renders (an oracle: pure
pretty-printing of interpreter state). -/
def fromTraceback (excName excMsg : String) (tb : Option Traceback)
    (getline : String → Nat → String) (formatExc : String) : ErrorContext :=
  match tb with
  | none =>
    { exception_type := excName
      exception_message := excMsg
      target_fqn := "unknown"
      file_path := "unknown"
      line_number := 0
      source_code := ""
      traceback_str := excName ++ ": " ++ excMsg
      local_vars := [] }
  | some t =>
    { exception_type := excName
      exception_message := excMsg
      target_fqn :=
        if t.co_name = "<module>" then "unknown.module"
        else (t.moduleName.getD "unknown") ++ "." ++ t.co_name
      file_path := t.co_filename
      line_number := t.tb_lineno
      source_code := sourceWindow getline t.co_filename t.tb_lineno
      traceback_str := formatExc
      local_vars := t.localsSnapshot.getD [] }

/-! ### `debug_logger.DebugLogger` -/

/-- Model of `os.path.basename` (POSIX): the part after the last `/`. -/
def pathBasename (p : String) : String :=
  String.mk ((p.data.reverse.takeWhile (fun c => c ≠ '/')).reverse)

/-- Root part of `os.path.splitext`: split off the suffix at the last `.`,
unless every character before that dot is itself a dot (leading-dot
files like `.bashrc` keep their name). -/
def splitextRoot (name : String) : String :=
  let cs := name.data
  match cs.reverse.findIdx? (fun c => c = '.') with
  | none => name
  | some r =>
    let pos := cs.length - 1 - r
    if pos = 0 || (cs.take pos).all (fun c => c = '.') then name
    else String.mk (cs.take pos)

/-- Model of `DebugLogger._extract_program_name`: basename without extension, with
spaces and dashes normalised to underscores; `"unknown"` for a falsy
(empty) path. -/
def extractProgramName (file_path : String) : String :=
  if file_path = "" then "unknown"
  else String.map (fun c => if c = ' ' || c = '-' then '_' else c)
    (splitextRoot (pathBasename file_path))

/-- Model of `fqn.split(".")[-1]`: text after the last dot (the whole string when
no dot occurs). -/
def lastComponent (fqn : String) : String :=
  String.mk ((fqn.data.reverse.takeWhile (fun c => c ≠ '.')).reverse)

/-- Model of `round(a / b)` in round-half-to-even (the rounding `format` applies),
with `b > 0`. -/
def roundHalfEvenDiv (a : Int) (b : Nat) : Int :=
  let bi : Int := b
  let n := a.fdiv bi
  let r := a - n * bi
  if 2 * r < bi then n
  else if 2 * r > bi then n + 1
  else if n % 2 = 0 then n else n + 1

/-- The value of `q`, as a count of tenths of a percent (`q * 1000`),
rounded to the nearest integer. -/
def pctTenths (q : JNum) : Int :=
  let e := q.exp10 + 3
  if 0 ≤ e then q.mant * 10 ^ e.toNat
  else roundHalfEvenDiv q.mant (10 ^ (-e).toNat)

/-- Python's `f"\x7bq:.1%\x7d"` on an exact decimal: percentage with one
decimal digit and a `%` sign. -/
def formatPct (q : JNum) : String :=
  let t := pctTenths q
  let a := t.natAbs
  (if t < 0 then "-" else "") ++ toString (a / 10) ++ "." ++ toString (a % 10) ++ "%"

/-- Model of `str(value)` for the opaque runtime values of the model. -/
def pyStrOfVal : PyVal → String
  | .pyNone => "None"
  | .callable i => "<function " ++ toString i ++ ">"
  | .obj i => "<object " ++ toString i ++ ">"

/-- One value as `json.dumps(..., default=str)` renders it: `None`
serialises natively to `null`, anything else in this model is
non-serialisable and goes through `default=str`, hence a quoted string. -/
def jsonDumpVal : PyVal → String
  | .pyNone => "null"
  | v => "\"" ++ pyStrOfVal v ++ "\""

/-- Model of `DebugLogger._format_local_vars`: `"\x7b\x7d"` when empty, otherwise
`json.dumps(local_vars, default=str, indent=2)`. -/
def formatLocalVars (lv : List (String × PyVal)) : String :=
  if lv.isEmpty then "\x7b\x7d"
  else
    "\x7b\n" ++
      String.intercalate ",\n"
        (lv.map (fun kv => "  \"" ++ kv.1 ++ "\": " ++ jsonDumpVal kv.2)) ++
      "\n\x7d"

/-- Model of `DebugLogger._generate_debug_markdown`: the session record document,
transcribed chunk for chunk from the source's f-strings (including the
two-space markdown line breaks).  `raw`/`errMsg` are `llm_response_raw` /
`error_message`; Python truthiness makes an empty string behave like
`None` for both. -/
def renderRecord (ctx : ErrorContext) (proposal : Option PatchProposal) (success : Bool)
    (raw : Option String) (errMsg : Option String) (timestamp : String) : String :=
  let status := if success then "SUCCESS" else "FAILED"
  let head :=
    "# ReflexRuntime Debug Session - " ++ status ++ "\n\n" ++
    (("**Status:** " ++ status) ++
      ("  \n**Timestamp:** " ++ timestamp ++
        "  \n**Program:** " ++ extractProgramName ctx.file_path ++
        "  \n**Function:** " ++ ctx.target_fqn ++
        "  \n**File:** " ++ ctx.file_path ++
        "  \n**Line:** " ++ toString ctx.line_number ++
        "  \n\n---\n\n## Exception Details\n\n**Type:** `" ++ ctx.exception_type ++
        "`  \n**Message:** `" ++ ctx.exception_message ++
        "`  \n\n### Full Traceback\n```\n" ++ ctx.traceback_str ++
        "\n```\n\n### Local Variables at Error\n```json\n" ++ formatLocalVars ctx.local_vars ++
        "\n```\n\n---\n\n## Original Code\n\n```python\n" ++ ctx.source_code ++
        "\n```\n\n---\n\n## AI Analysis\n\n"))
  let analysis :=
    match proposal with
    | some p =>
      "\n### AI Recommendation\n**Confidence:** " ++ formatPct p.confidence ++
      "  \n**Explanation:** " ++ p.explanation ++
      "\n\n### AI-Generated Patch\n```python\n" ++ p.patch_code ++
      "\n```\n\n### Test Cases Suggested\n" ++
      String.join (p.test_cases.enum.map
        (fun ic => toString (ic.1 + 1) ++ ". " ++ ic.2 ++ "\n"))
    | none => "\n**Result:** AI could not generate a patch for this exception.\n"
  let rawSection :=
    match raw with
    | some r => if r = "" then "" else "\n### Raw LLM Response\n```json\n" ++ r ++ "\n```\n"
    | none => ""
  let application :=
    "\n---\n\n## Patch Application\n\n" ++
    (if success then
      "**Patch applied successfully!**\n\n" ++
      "The function was hot-swapped in memory and is now handling the error case gracefully.\n"
    else
      "**Patch application failed.**\n\n" ++
      (match errMsg with
        | some m => if m = "" then "" else "**Error:** " ++ m ++ "\n\n"
        | none => "") ++
      "The original function remains unchanged.\n")
  let aiConfidence :=
    match proposal with
    | some p => formatPct p.confidence
    | none => "N/A"
  let patchStatus := if success then "Applied" else "Failed"
  let summary :=
    "\n---\n\n## Session Summary\n\n- **Exception Type:** " ++ ctx.exception_type ++
    "\n- **AI Confidence:** " ++ aiConfidence ++
    "\n- **Patch Status:** " ++ patchStatus ++
    "\n- **Function:** " ++ ctx.target_fqn ++
    "\n\n---\n\n*Generated by ReflexRuntime Debug Logger*\n"
  head ++ analysis ++ rawSection ++ application ++ summary

/-- The log directory, as file name ↦ file content. -/
abbrev LogDir := List (String × String)

/-- Model of `open(path, "w").write(content)`: overwrite an existing file of the
same name, create the file otherwise. -/
def writeFile (dir : LogDir) (name content : String) : LogDir :=
  if (dir.map Prod.fst).contains name then
    dir.map (fun kv => if kv.1 = name then (name, content) else kv)
  else dir ++ [(name, content)]

/-- The record identity `\x7bprogram\x7d_\x7bfunction\x7d_\x7bepoch\x7d.md`
derived in `log_ai_session`. -/
def logFilename (ctx : ErrorContext) (epoch : Nat) : String :=
  extractProgramName ctx.file_path ++ "_" ++ lastComponent ctx.target_fqn ++ "_" ++
    toString epoch ++ ".md"

/-- Model of `DebugLogger.log_ai_session`, with the wall clock passed in
(`timestamp` for the rendered header, `epoch` for the filename) and file
I/O modelled as succeeding (the source's `except` around the write is a
warn-and-return-`None` path).  Returns the directory after the write and
the `filepath` result. -/
def logAiSession (ctx : ErrorContext) (proposal : Option PatchProposal) (success : Bool)
    (raw errMsg : Option String) (timestamp : String) (epoch : Nat) (dir : LogDir) :
    LogDir × String :=
  let filename := logFilename ctx epoch
  (writeFile dir filename (renderRecord ctx proposal success raw errMsg timestamp),
    "debug/" ++ filename)

/-- Model of `str.endswith(suffix)`. -/
def pyEndsWith (s suffix : String) : Bool :=
  startsWithChars suffix.data.reverse s.data.reverse

/-- Code-point lexicographic order on text, the order Python compares
strings by. -/
def listLtB : List Char → List Char → Bool
  | [], [] => false
  | [], _ :: _ => true
  | _ :: _, [] => false
  | a :: as, b :: bs =>
    if a.toNat < b.toNat then true
    else if b.toNat < a.toNat then false
    else listLtB as bs

/-- Descending (`reverse=True`) stable sort of file names. -/
def sortRevStrings (l : List String) : List String :=
  l.insertionSort (fun a b => listLtB a.data b.data = false)

/-- Model of `DebugLogger.list_debug_sessions`: the `.md` entries of the log
directory, most recent (largest name) first. -/
def listDebugSessions (dir : LogDir) : List String :=
  sortRevStrings ((dir.map Prod.fst).filter (fun n => pyEndsWith n ".md"))

/-- Reading a listed file back (reads succeed in the model; the source
`continue`s past unreadable files). -/
def readFileD (dir : LogDir) (name : String) : String :=
  ((dir.find? (fun kv => kv.1 = name)).map (fun kv => kv.2)).getD ""

/-- Does `pat` occur at some position of the haystack? -/
def substrAux (pat : List Char) : List Char → Bool
  | [] => pat.isEmpty
  | c :: cs => startsWithChars pat (c :: cs) || substrAux pat cs

/-- Model of `"**Status:** SUCCESS" in content`. -/
def containsSubstr (text pat : String) : Bool := substrAux pat.data text.data

def successMarker : String := "**Status:** SUCCESS"

/-- The dict `DebugLogger.get_session_stats` returns. -/
structure SessionStats where
  total_sessions : Nat
  successful_sessions : Nat
  failed_sessions : Nat
  success_rate : ℚ
deriving DecidableEq, Repr

/-- Model of `DebugLogger.get_session_stats`: counts over the `.md` records, with
`success_rate = successful / total * 100` (no rounding anywhere) and `0`
for an empty directory. -/
def getSessionStats (dir : LogDir) : SessionStats :=
  let files := listDebugSessions dir
  let total := files.length
  let succ := (files.filter (fun n => containsSubstr (readFileD dir n) successMarker)).length
  { total_sessions := total
    successful_sessions := succ
    failed_sessions := total - succ
    success_rate := if total > 0 then (succ : ℚ) / (total : ℚ) * 100 else 0 }

/-! ### `orchestrator.SimpleOrchestrator.handle` and the exception hook -/

/-- The orchestrator's mutable attributes set in `__init__`. -/
structure OrchState where
  patches_applied : Nat
  debug : Bool
deriving DecidableEq, Repr

/-- The per-call external environment of `handle`:

* `clientFetch` — what `get_llm_client()` does: `.error` models it raising
  (as `LLMClient.__init__` does without an API key), `.ok none` the
  `llm_client is None` branch the source guards for, `.ok (some ())` a
  usable client;
* `llmResponse` — outcome of
  `analyze_exception_and_generate_patch_with_raw(ctx)`: `.error` models
  the call raising, `.ok` its return value (`analyzeWithRaw` relates this
  to the transport text for the generator claims);
* `execSem` — the interpreter's `exec`;
* `getline`, `formatExc`, `timestamp`, `epoch` — line cache, traceback
  renderer and wall clock. -/
structure HandleEnv where
  clientFetch : Except String (Option Unit)
  llmResponse : Except String (Option (PatchProposal × String))
  execSem : ExecSem
  getline : String → Nat → String
  formatExc : String
  timestamp : String
  epoch : Nat

/-- Everything observable after a `handle` call: the Python return value
(`none` models falling off the end of the function, i.e. returning
`None`), the orchestrator state, the patched namespace, and the log
directory. -/
structure HandleResult where
  ret : Option Bool
  state : OrchState
  ns : Option Namespace
  dir : LogDir

/-- Model of `SimpleOrchestrator.handle(exc_type, exc_value, tb)`.  Transcribed
control flow:

* `get_llm_client()` raising is caught by the outer `except Exception` →
  return `False`, nothing logged;
* the `llm_client is None` branch sets locals and then falls off the end
  of the outer `try` → implicit `None`, nothing logged;
* a raising `analyze_..._with_raw` hits the inner `except` → one failure
  record, return `False`;
* a `None` response → one failure record, return `False`;
* a proposal → `_apply_llm_patch`, `patches_applied` incremented on
  success, one record either way, the applier's boolean returned. -/
def handle (env : HandleEnv) (st : OrchState) (nsOpt : Option Namespace)
    (excName excMsg : String) (tb : Option Traceback) (dir : LogDir) : HandleResult :=
  let ctx := fromTraceback excName excMsg tb env.getline env.formatExc
  match env.clientFetch with
  | .error _ => ⟨some false, st, nsOpt, dir⟩
  | .ok none => ⟨none, st, nsOpt, dir⟩
  | .ok (some _) =>
    match env.llmResponse with
    | .error e =>
      ⟨some false, st, nsOpt,
        (logAiSession ctx none false none (some ("LLM integration error: " ++ e))
          env.timestamp env.epoch dir).1⟩
    | .ok none =>
      ⟨some false, st, nsOpt,
        (logAiSession ctx none false (some "No response from LLM")
          (some "LLM could not generate a patch") env.timestamp env.epoch dir).1⟩
    | .ok (some (p, raw)) =>
      let res := applyLLMPatch env.execSem p.patch_code nsOpt
      let st' := if res.1 then { st with patches_applied := st.patches_applied + 1 } else st
      let errMsg := if res.1 then none else some "Patch application failed"
      ⟨some res.1, st', res.2,
        (logAiSession ctx (some p) res.1 (some raw) errMsg env.timestamp env.epoch dir).1⟩

/-- Python truthiness of `handle`'s result (`True`/`False`/`None`). -/
def pyTruthy : Option Bool → Bool
  | some b => b
  | none => false

/-- The replacement `sys.excepthook` that `install_hook` registers.
Returns the `handle` outcome together with whether the previously
installed `original_excepthook` is invoked (`if handled: ... else:
original_excepthook(...)`). -/
def reflexExcepthook (env : HandleEnv) (st : OrchState) (nsOpt : Option Namespace)
    (excName excMsg : String) (tb : Option Traceback) (dir : LogDir) :
    HandleResult × Bool :=
  let r := handle env st nsOpt excName excMsg tb dir
  (r, !pyTruthy r.ret)


/-!
## Supporting lemmas

Substring facts about the character-level scan `substrAux`, used for the
`"**Status:** SUCCESS" in content` marker reasoning. -/

theorem startsWithChars_self_append (p r : List Char) :
    startsWithChars p (p ++ r) = true := by
  induction p with
  | nil => rfl
  | cons c cs ih => simp [startsWithChars, ih]

theorem startsWithChars_append_cancel (p q r : List Char) :
    startsWithChars (p ++ q) (p ++ r) = startsWithChars q r := by
  induction p with
  | nil => rfl
  | cons c cs ih => simp [startsWithChars, ih]

theorem startsWithChars_extend {p t : List Char} (r : List Char)
    (h : startsWithChars p t = true) : startsWithChars p (t ++ r) = true := by
  induction p generalizing t with
  | nil => rfl
  | cons q qs ih =>
    cases t with
    | nil => simp [startsWithChars] at h
    | cons c cs =>
      simp only [startsWithChars, Bool.and_eq_true] at h
      simp [startsWithChars, h.1, ih h.2]

theorem substrAux_nil (t : List Char) : substrAux [] t = true := by
  induction t with
  | nil => rfl
  | cons c cs ih => simp [substrAux, ih, startsWithChars]

theorem substrAux_of_startsWith {pat t : List Char}
    (h : startsWithChars pat t = true) : substrAux pat t = true := by
  cases t with
  | nil =>
    cases pat with
    | nil => rfl
    | cons c cs => simp [startsWithChars] at h
  | cons c cs => simp [substrAux, h]

theorem substrAux_append_left (A : List Char) {pat rest : List Char}
    (h : substrAux pat rest = true) : substrAux pat (A ++ rest) = true := by
  induction A with
  | nil => simpa using h
  | cons c cs ih => simp [substrAux, ih]

theorem substrAux_extend {pat A : List Char} (B : List Char)
    (h : substrAux pat A = true) : substrAux pat (A ++ B) = true := by
  induction A with
  | nil =>
    have : pat = [] := by
      cases pat with
      | nil => rfl
      | cons p ps => simp [substrAux] at h
    simp [this, substrAux_nil]
  | cons c cs ih =>
    simp only [substrAux, Bool.or_eq_true] at h
    rcases h with h | h
    · exact substrAux_of_startsWith (startsWithChars_extend B h)
    · simp [substrAux, ih h]

theorem containsSubstr_append_right (a b m : String)
    (h : containsSubstr b m = true) : containsSubstr (a ++ b) m = true := by
  unfold containsSubstr at *
  rw [String.data_append]
  exact substrAux_append_left _ h

theorem containsSubstr_append_of_left (a b m : String)
    (h : containsSubstr a m = true) : containsSubstr (a ++ b) m = true := by
  unfold containsSubstr at *
  rw [String.data_append]
  exact substrAux_extend _ h

theorem containsSubstr_head (m b : String) :
    containsSubstr (m ++ b) m = true := by
  unfold containsSubstr
  rw [String.data_append]
  exact substrAux_of_startsWith (startsWithChars_self_append _ _)

/-- The rendered session record contains the status-marker text matching
its success flag. -/
theorem renderRecord_contains_status (ctx : ErrorContext) (prop : Option PatchProposal)
    (success : Bool) (raw errMsg : Option String) (ts : String) :
    containsSubstr (renderRecord ctx prop success raw errMsg ts)
      ("**Status:** " ++ (if success then "SUCCESS" else "FAILED")) = true := by
  unfold renderRecord
  apply containsSubstr_append_of_left
  apply containsSubstr_append_of_left
  apply containsSubstr_append_of_left
  apply containsSubstr_append_of_left
  apply containsSubstr_append_right
  exact containsSubstr_head _ _

/-!
## Claim theorems -/

/-- C1: evaluation of `_apply_llm_patch` on a syntactically invalid patch
(`exec` raises `SyntaxError`, namespace untouched) over a namespace where
the extracted name `f` is bound to the original callable.  The call returns
**`true`** — not `false` as the specification demands — because the
`except Exception` clause catches the `SyntaxError` first and the
pre-existing binding satisfies both the `hasattr` recheck and the final
not-`None` verification.  The binding itself is indeed left unchanged. -/
theorem applyLLMPatch_syntax_error_returns_true :
    applyLLMPatch (fun _ _ => .syntaxError) "def f("
      (some [("f", PyVal.callable 0)]) = (true, some [("f", PyVal.callable 0)]) := by
  decide

/-- C3: `handle` returns `True` exactly when the client was obtained, the
generator returned a (non-null) proposal, and `_apply_llm_patch` returned
`true` on it; every other path returns `False` or `None`. -/
theorem handle_true_iff_proposal_and_apply (env : HandleEnv) (st : OrchState)
    (nsOpt : Option Namespace) (excName excMsg : String) (tb : Option Traceback)
    (dir : LogDir) :
    (handle env st nsOpt excName excMsg tb dir).ret = some true ↔
      env.clientFetch = .ok (some ()) ∧
      ∃ p raw, env.llmResponse = .ok (some (p, raw)) ∧
        (applyLLMPatch env.execSem p.patch_code nsOpt).1 = true := by
  unfold handle
  rcases hc : env.clientFetch with e | oc
  · simp [hc]
  · rcases oc with _ | u
    · simp [hc]
    · rcases hr : env.llmResponse with e | orp
      · simp [hc, hr]
      · rcases orp with _ | ⟨p, raw⟩
        · simp [hc, hr]
        · simp [hc, hr]

/-- C4: the replacement excepthook invokes the previously installed handler
exactly when `handle` produced a non-`True` result (`False` or the implicit
`None`), and skips it exactly when `handle` returned `True`. -/
theorem excepthook_original_iff_not_handled (env : HandleEnv) (st : OrchState)
    (nsOpt : Option Namespace) (excName excMsg : String) (tb : Option Traceback)
    (dir : LogDir) :
    (reflexExcepthook env st nsOpt excName excMsg tb dir).2 = true ↔
      (handle env st nsOpt excName excMsg tb dir).ret ≠ some true := by
  unfold reflexExcepthook
  rcases h : (handle env st nsOpt excName excMsg tb dir).ret with _ | b
  · simp [pyTruthy, h]
  · cases b <;> simp [pyTruthy, h]

/-- C7: `ErrorContext.from_traceback` on a `None` traceback returns (never
raises — the model function is total) the sentinel context: `target_fqn`
and `file_path` `"unknown"`, line `0`, empty source window, empty locals. -/
theorem fromTraceback_none_sentinels (excName excMsg : String)
    (getline : String → Nat → String) (formatExc : String) :
    (fromTraceback excName excMsg none getline formatExc).target_fqn = "unknown" ∧
    (fromTraceback excName excMsg none getline formatExc).file_path = "unknown" ∧
    (fromTraceback excName excMsg none getline formatExc).line_number = 0 ∧
    (fromTraceback excName excMsg none getline formatExc).source_code = "" ∧
    (fromTraceback excName excMsg none getline formatExc).local_vars = [] :=
  ⟨rfl, rfl, rfl, rfl, rfl⟩

/-- C10: one `handle` call increments `patches_applied` by exactly one when
it returns `True`, leaves it unchanged on every non-`True` result, and
never touches the `debug` flag. -/
theorem handle_counter_and_debug_frame (env : HandleEnv) (st : OrchState)
    (nsOpt : Option Namespace) (excName excMsg : String) (tb : Option Traceback)
    (dir : LogDir) :
    ((handle env st nsOpt excName excMsg tb dir).ret = some true →
      (handle env st nsOpt excName excMsg tb dir).state.patches_applied =
        st.patches_applied + 1) ∧
    ((handle env st nsOpt excName excMsg tb dir).ret ≠ some true →
      (handle env st nsOpt excName excMsg tb dir).state.patches_applied =
        st.patches_applied) ∧
    (handle env st nsOpt excName excMsg tb dir).state.debug = st.debug := by
  unfold handle
  rcases hc : env.clientFetch with e | oc
  · simp [hc]
  · rcases oc with _ | u
    · simp [hc]
    · rcases hr : env.llmResponse with e | orp
      · simp [hc, hr]
      · rcases orp with _ | ⟨p, raw⟩
        · simp [hc, hr]
        · rcases happly : applyLLMPatch env.execSem p.patch_code nsOpt with ⟨b, ns2⟩
          cases b <;> simp [hc, hr, happly]

/-- C10 witness: a concrete successful run (client present, proposal
returned, `exec` succeeds, name stays bound callable) increments the
counter from 0 to 1. -/
theorem handle_counter_and_debug_frame_witness :
    (handle
      { clientFetch := .ok (some ())
        llmResponse := .ok (some
          ({ patch_code := "def f(x):\n    return 1", explanation := "e",
             confidence := ⟨9, -1⟩, test_cases := [] }, "raw"))
        execSem := fun _ ns => .ok ns
        getline := fun _ _ => ""
        formatExc := "tb"
        timestamp := "t"
        epoch := 5 }
      ⟨0, true⟩ (some [("f", PyVal.callable 0)]) "ZeroDivisionError" "division by zero"
      none []).state.patches_applied = 0 + 1 :=
  (handle_counter_and_debug_frame _ _ _ _ _ _ _).1 (by decide)

/-- A write with a name not yet in the directory appends one entry. -/
theorem writeFile_fresh {dir : LogDir} {name : String} (content : String)
    (h : name ∉ dir.map Prod.fst) :
    writeFile dir name content = dir ++ [(name, content)] := by
  unfold writeFile
  rw [if_neg]
  simpa using h

/-- C2 counterexample: when `get_llm_client()` raises (as it does whenever
no API key is configured), `handle` returns `False` via the outer `except`
and writes **no** session record — the log directory stays empty, refuting
"exactly one new session record for every invocation of handle". -/
theorem handle_client_raise_logs_nothing :
    (handle
      { clientFetch := .error "OpenAI API key not found"
        llmResponse := .ok none
        execSem := fun _ ns => .ok ns
        getline := fun _ _ => ""
        formatExc := ""
        timestamp := "t"
        epoch := 0 }
      ⟨0, true⟩ none "ValueError" "boom" none []).dir = [] ∧
    (handle
      { clientFetch := .error "OpenAI API key not found"
        llmResponse := .ok none
        execSem := fun _ ns => .ok ns
        getline := fun _ _ => ""
        formatExc := ""
        timestamp := "t"
        epoch := 0 }
      ⟨0, true⟩ none "ValueError" "boom" none []).ret = some false :=
  ⟨rfl, rfl⟩

/-- C2 (amended): whenever the LLM client is obtained without raising,
`handle` appends exactly one new session record (under the derived
filename, assumed fresh — same-second collisions overwrite instead) and
that record carries the status-marker text matching the boolean `handle`
returns; when obtaining the client raises or yields no client, nothing is
logged and the result is not `True`. -/
theorem handle_logs_one_record_matching_status (env : HandleEnv) (st : OrchState)
    (nsOpt : Option Namespace) (excName excMsg : String) (tb : Option Traceback)
    (dir : LogDir)
    (hc : env.clientFetch = .ok (some ()))
    (hfresh : logFilename (fromTraceback excName excMsg tb env.getline env.formatExc)
      env.epoch ∉ dir.map Prod.fst) :
    ∃ b rec, (handle env st nsOpt excName excMsg tb dir).ret = some b ∧
      (handle env st nsOpt excName excMsg tb dir).dir =
        dir ++ [(logFilename (fromTraceback excName excMsg tb env.getline env.formatExc)
          env.epoch, rec)] ∧
      containsSubstr rec ("**Status:** " ++ (if b then "SUCCESS" else "FAILED")) = true := by
  rcases hr : env.llmResponse with e | orp
  · refine ⟨false,
      renderRecord (fromTraceback excName excMsg tb env.getline env.formatExc) none false
        none (some ("LLM integration error: " ++ e)) env.timestamp, ?_, ?_, ?_⟩
    · simp [handle, hc, hr]
    · simp only [handle, hc, hr, logAiSession]
      exact writeFile_fresh _ hfresh
    · exact renderRecord_contains_status _ _ _ _ _ _
  · rcases orp with _ | ⟨p, raw⟩
    · refine ⟨false,
        renderRecord (fromTraceback excName excMsg tb env.getline env.formatExc) none false
          (some "No response from LLM") (some "LLM could not generate a patch")
          env.timestamp, ?_, ?_, ?_⟩
      · simp [handle, hc, hr]
      · simp only [handle, hc, hr, logAiSession]
        exact writeFile_fresh _ hfresh
      · exact renderRecord_contains_status _ _ _ _ _ _
    · rcases happly : applyLLMPatch env.execSem p.patch_code nsOpt with ⟨b, ns2⟩
      refine ⟨b,
        renderRecord (fromTraceback excName excMsg tb env.getline env.formatExc) (some p) b
          (some raw) (if b then none else some "Patch application failed") env.timestamp,
        ?_, ?_, ?_⟩
      · simp [handle, hc, hr, happly]
      · simp only [handle, hc, hr, happly, logAiSession]
        exact writeFile_fresh _ hfresh
      · exact renderRecord_contains_status _ _ _ _ _ _

/-- C2 witness: a concrete call with a usable client and a generator that
returns no proposal appends exactly one `FAILED`-marked record to an empty
directory. -/
theorem handle_logs_one_record_matching_status_witness :
    ∃ b rec,
      (handle
        { clientFetch := .ok (some ())
          llmResponse := .ok none
          execSem := fun _ ns => .ok ns
          getline := fun _ _ => ""
          formatExc := "tb"
          timestamp := "t"
          epoch := 7 }
        ⟨0, true⟩ none "KeyError" "missing" none []).ret = some b ∧
      (handle
        { clientFetch := .ok (some ())
          llmResponse := .ok none
          execSem := fun _ ns => .ok ns
          getline := fun _ _ => ""
          formatExc := "tb"
          timestamp := "t"
          epoch := 7 }
        ⟨0, true⟩ none "KeyError" "missing" none []).dir =
        [] ++ [(logFilename (fromTraceback "KeyError" "missing" none
          (fun _ _ => "") "tb") 7, rec)] ∧
      containsSubstr rec ("**Status:** " ++ (if b then "SUCCESS" else "FAILED")) = true :=
  handle_logs_one_record_matching_status _ _ _ _ _ _ _ rfl (by simp)

/-- C5 counterexample: a proposal whose execution rebinds the extracted
name to a non-callable object still makes `_apply_llm_patch` return
`true` — the final verification only rejects `None`, never checks
`callable` — refuting "bound ... and that binding is callable / a
non-callable binding makes apply return false". -/
theorem applyLLMPatch_accepts_noncallable :
    applyLLMPatch (fun _ _ => .ok [("f", PyVal.obj 42)]) "def f(x):\n    return 1"
      (some [("f", PyVal.callable 0)]) = (true, some [("f", PyVal.obj 42)]) ∧
    PyVal.isCallable (PyVal.obj 42) = false :=
  ⟨by decide, rfl⟩

/-- The final verification succeeds only on a binding that is present and
not `None`. -/
theorem postVerify_true (ns : Namespace) (fname : String)
    (h : (postVerify ns fname).1 = true) :
    ∃ v, nsGet ns fname = some v ∧ v ≠ PyVal.pyNone := by
  unfold postVerify at h
  rcases hv : nsGet ns fname with _ | v
  · rw [hv] at h; simp at h
  · rw [hv] at h
    cases v with
    | pyNone => simp at h
    | callable i => exact ⟨PyVal.callable i, rfl, by simp⟩
    | obj i => exact ⟨PyVal.obj i, rfl, by simp⟩

/-- The final verification reports the namespace it inspected. -/
theorem postVerify_snd (ns : Namespace) (fname : String) :
    (postVerify ns fname).2 = some ns := by
  unfold postVerify
  rcases hv : nsGet ns fname with _ | v
  · rfl
  · cases v <;> rfl

/-- C5 (amended): whenever `_apply_llm_patch` returns `true`, the extracted
function name is bound in the resulting namespace to a value other than
`None`; a proposal whose execution leaves the name unbound or bound to
`None` makes apply return `false`.  (No callability guarantee: the source
never calls `callable` on the new binding.) -/
theorem applyLLMPatch_postconditions :
    (∀ (es : ExecSem) (pc : String) (nsOpt : Option Namespace),
      (applyLLMPatch es pc nsOpt).1 = true →
      ∃ fname ns2, extractFunctionName pc = some fname ∧
        (applyLLMPatch es pc nsOpt).2 = some ns2 ∧
        ∃ v, nsGet ns2 fname = some v ∧ v ≠ PyVal.pyNone) ∧
    (∀ (es : ExecSem) (pc : String) (ns ns2 : Namespace) (fname : String),
      extractFunctionName pc = some fname → es pc ns = .ok ns2 →
      (nsGet ns2 fname = none ∨ nsGet ns2 fname = some PyVal.pyNone) →
      (applyLLMPatch es pc (some ns)).1 = false) := by
  constructor
  · intro es pc nsOpt htrue
    unfold applyLLMPatch at htrue ⊢
    rcases hf : extractFunctionName pc with _ | fname
    · rw [hf] at htrue; simp at htrue
    · rw [hf] at htrue
      dsimp only at htrue ⊢
      rcases nsOpt with _ | ns
      · simp at htrue
      · dsimp only at htrue ⊢
        by_cases hh : hasattrNs ns fname = true
        · rw [if_pos hh] at htrue ⊢
          generalize hex : es pc ns = eo at htrue ⊢
          cases eo with
          | syntaxError =>
            try dsimp only at htrue ⊢
            rw [if_pos hh] at htrue ⊢
            exact ⟨fname, ns, rfl, postVerify_snd _ _, postVerify_true _ _ htrue⟩
          | ok ns2 =>
            try dsimp only at htrue ⊢
            exact ⟨fname, ns2, rfl, postVerify_snd _ _, postVerify_true _ _ htrue⟩
          | raised ns2 =>
            try dsimp only at htrue ⊢
            by_cases hh2 : hasattrNs ns2 fname = true
            · rw [if_pos hh2] at htrue ⊢
              exact ⟨fname, ns2, rfl, postVerify_snd _ _, postVerify_true _ _ htrue⟩
            · rw [if_neg hh2] at htrue; simp at htrue
        · rw [if_neg hh] at htrue; simp at htrue
  · intro es pc ns ns2 fname hf hex hv
    unfold applyLLMPatch
    rw [hf]
    dsimp only
    by_cases hh : hasattrNs ns fname = true
    · rw [if_pos hh, hex]
      dsimp only
      unfold postVerify
      rcases hv with hv | hv <;> rw [hv]
    · rw [if_neg hh]

/-- C5 witness: a clean redefinition leaves the name bound to a
non-`None` value (apply true case), and an execution that rebinds the
name to `None` makes apply return `false`. -/
theorem applyLLMPatch_postconditions_witness :
    (∃ fname ns2, extractFunctionName "def g(a):\n    return a" = some fname ∧
      (applyLLMPatch (fun _ ns => .ok ns) "def g(a):\n    return a"
        (some [("g", PyVal.callable 3)])).2 = some ns2 ∧
      ∃ v, nsGet ns2 fname = some v ∧ v ≠ PyVal.pyNone) ∧
    (applyLLMPatch (fun _ _ => .ok [("g", PyVal.pyNone)]) "def g(a):\n    return a"
      (some [("g", PyVal.callable 3)])).1 = false :=
  ⟨applyLLMPatch_postconditions.1 (fun _ ns => .ok ns) "def g(a):\n    return a"
      (some [("g", PyVal.callable 3)]) (by decide),
   applyLLMPatch_postconditions.2 (fun _ _ => .ok [("g", PyVal.pyNone)])
      "def g(a):\n    return a" [("g", PyVal.callable 3)] [("g", PyVal.pyNone)] "g"
      (by decide) rfl (Or.inr (by decide))⟩

/-- C6 counterexample: a reply that *is* a JSON object wrapped in a
```json fence, but whose `confidence` field is a list, yields `None`:
`float([])` raises `TypeError`, which neither inner handler catches, so
the outer `except Exception` converts the whole call to `None` instead of
returning a proposal parsed from the object. -/
theorem analyze_fenced_ill_typed_yields_none :
    searchFencedJson (pyStrip
        "```json\n\x7b\"patch_code\": \"x\", \"explanation\": \"e\", \"confidence\": []\x7d\n```")
      = some "\x7b\"patch_code\": \"x\", \"explanation\": \"e\", \"confidence\": []\x7d" ∧
    jsonLoads "\x7b\"patch_code\": \"x\", \"explanation\": \"e\", \"confidence\": []\x7d"
      = some (Json.obj [("patch_code", Json.str "x"), ("explanation", Json.str "e"),
          ("confidence", Json.arr [])]) ∧
    analyzeWithRaw (.ok
        "```json\n\x7b\"patch_code\": \"x\", \"explanation\": \"e\", \"confidence\": []\x7d\n```")
      = none :=
  ⟨rfl, rfl, rfl⟩

/-- C6 (amended): a transport/API error yields `None`; a reply that parses
neither directly nor through the fenced-block recovery yields `None`
rather than raising; and a reply whose fenced `json` block holds a
parseable object from which a proposal constructs cleanly (fields of the
expected types, `confidence` convertible to a number) yields that
proposal. -/
theorem analyzeWithRaw_fallbacks :
    (∀ e, analyzeWithRaw (.error e) = none) ∧
    (∀ text, jsonLoads (pyStrip text) = none →
      (∀ grp, searchFencedJson (pyStrip text) = some grp → jsonLoads grp = none) →
      analyzeWithRaw (.ok text) = none) ∧
    (∀ text grp j p, jsonLoads (pyStrip text) = none →
      searchFencedJson (pyStrip text) = some grp →
      jsonLoads grp = some j → mkProposal j = some p →
      analyzeWithRaw (.ok text) = some (p, pyStrip text)) := by
  refine ⟨fun e => rfl, ?_, ?_⟩
  · intro text h1 h2
    unfold analyzeWithRaw
    dsimp only
    rw [h1]
    dsimp only
    rcases hg : searchFencedJson (pyStrip text) with _ | grp
    · rfl
    · dsimp only
      rw [h2 grp hg]
  · intro text grp j p h1 h2 h3 h4
    unfold analyzeWithRaw
    dsimp only
    rw [h1]
    dsimp only
    rw [h2]
    dsimp only
    rw [h3]
    dsimp only
    rw [h4]

set_option maxRecDepth 8192 in
/-- C6 witness: a transport failure and an unparseable plain-text reply
both yield `None`, while a well-typed fenced reply parses into the
expected proposal. -/
theorem analyzeWithRaw_fallbacks_witness :
    analyzeWithRaw (.error "connection reset") = none ∧
    analyzeWithRaw (.ok "I cannot produce a patch here") = none ∧
    analyzeWithRaw (.ok
        "```json\n\x7b\"patch_code\": \"def d(a, b):\\n    return None\", \"explanation\": \"guard zero\", \"confidence\": 0.9, \"test_cases\": [\"t1\"]\x7d\n```")
      = some ({ patch_code := "def d(a, b):\n    return None",
                explanation := "guard zero", confidence := ⟨9, -1⟩,
                test_cases := ["t1"] },
              pyStrip
                "```json\n\x7b\"patch_code\": \"def d(a, b):\\n    return None\", \"explanation\": \"guard zero\", \"confidence\": 0.9, \"test_cases\": [\"t1\"]\x7d\n```") :=
  ⟨analyzeWithRaw_fallbacks.1 ("connection reset"),
   analyzeWithRaw_fallbacks.2.1 ("I cannot produce a patch here") rfl
     (fun grp h => by
       rw [show searchFencedJson (pyStrip "I cannot produce a patch here") = none from rfl]
         at h
       exact Option.noConfusion h),
   analyzeWithRaw_fallbacks.2.2 _ _ _ _ rfl rfl rfl rfl⟩

/-- C9 counterexample: a payload that parses as JSON and has no
`confidence` field produces a proposal with confidence `0.5` — the
generator's own `patch_data.get("confidence", 0.5)` default — not the
`0.8` the claim states (the schema default `0.8` is dead for the
generator, which always passes `confidence` explicitly). -/
theorem analyze_confidence_default_not_eight_tenths :
    analyzeWithRaw (.ok "\x7b\"patch_code\": \"x\", \"explanation\": \"e\"\x7d")
      = some ({ patch_code := "x", explanation := "e", confidence := ⟨5, -1⟩,
                test_cases := [] },
              "\x7b\"patch_code\": \"x\", \"explanation\": \"e\"\x7d") ∧
    JNum.toRat ⟨5, -1⟩ ≠ (4 : ℚ) / 5 :=
  ⟨rfl, by rw [JNum.toRat]; rw [zpow_neg_one]; norm_num⟩

/-- C9 (amended): every payload that parses as a JSON object with no
`confidence` field and from which the generator constructs a proposal at
all gives that proposal confidence `0.5` (the generator's default), not
the schema-level `0.8`. -/
theorem mkProposal_confidence_default (kvs : List (String × Json)) (p : PatchProposal)
    (hno : jget kvs "confidence" = none)
    (hp : mkProposal (Json.obj kvs) = some p) :
    p.confidence.toRat = 1 / 2 := by
  unfold mkProposal at hp
  dsimp only at hp
  rw [hno] at hp
  dsimp only [Option.getD] at hp
  split at hp
  · split at hp
    · rename_i c tcs hpf htc
      obtain rfl := Option.some.inj hp
      have hc : c = ⟨5, -1⟩ := by
        simpa [pyFloat] using hpf.symm
      rw [hc]
      rw [JNum.toRat, zpow_neg_one]
      norm_num
    · exact Option.noConfusion hp
  · exact Option.noConfusion hp

/-- C9 witness: the concrete two-field payload yields a proposal whose
confidence value is one half. -/
theorem mkProposal_confidence_default_witness :
    jget [("patch_code", Json.str "x"), ("explanation", Json.str "e")] "confidence"
      = none ∧
    ∃ p, mkProposal (Json.obj [("patch_code", Json.str "x"), ("explanation", Json.str "e")])
      = some p ∧ p.confidence.toRat = 1 / 2 :=
  ⟨rfl, ⟨⟨"x", "e", ⟨5, -1⟩, []⟩, rfl,
    mkProposal_confidence_default
      [("patch_code", Json.str "x"), ("explanation", Json.str "e")]
      ⟨"x", "e", ⟨5, -1⟩, []⟩ rfl rfl⟩⟩

/-- Projection form of the statistics dict's `success_rate` entry. -/
theorem getSessionStats_rate_eq (dir : LogDir) :
    (getSessionStats dir).success_rate =
      if (getSessionStats dir).total_sessions > 0
      then ((getSessionStats dir).successful_sessions : ℚ) /
        ((getSessionStats dir).total_sessions : ℚ) * 100
      else 0 := rfl

/-- C8 counterexample: on a directory of exactly three records, two
carrying the `SUCCESS` marker, `get_session_stats` reports the counts the
claim expects but a `success_rate` of `2/3 · 100 = 200/3 = 66.666…` — the
source never rounds, so the rate is **not** `66.7`. -/
theorem getSessionStats_unrounded :
    (getSessionStats [("a.md", "# x\n\n**Status:** SUCCESS  \nrest"),
        ("b.md", "**Status:** SUCCESS"), ("c.md", "**Status:** FAILED")]).total_sessions
      = 3 ∧
    (getSessionStats [("a.md", "# x\n\n**Status:** SUCCESS  \nrest"),
        ("b.md", "**Status:** SUCCESS"), ("c.md", "**Status:** FAILED")]).successful_sessions
      = 2 ∧
    (getSessionStats [("a.md", "# x\n\n**Status:** SUCCESS  \nrest"),
        ("b.md", "**Status:** SUCCESS"), ("c.md", "**Status:** FAILED")]).success_rate
      ≠ (667 : ℚ) / 10 := by
  refine ⟨by decide, by decide, ?_⟩
  rw [getSessionStats_rate_eq]
  rw [show (getSessionStats [("a.md", "# x\n\n**Status:** SUCCESS  \nrest"),
        ("b.md", "**Status:** SUCCESS"), ("c.md", "**Status:** FAILED")]).total_sessions
      = 3 from by decide,
      show (getSessionStats [("a.md", "# x\n\n**Status:** SUCCESS  \nrest"),
        ("b.md", "**Status:** SUCCESS"), ("c.md", "**Status:** FAILED")]).successful_sessions
      = 2 from by decide]
  rw [if_pos (by norm_num)]
  norm_num

/-- C8 (amended): for a directory of exactly three `.md` records of which
two contain the `SUCCESS` marker and one does not, `get_session_stats`
reports total 3, successful 2, failed 1, and `success_rate = 200/3`
(≈ 66.67; the quotient times 100, with no rounding anywhere); for an
empty directory the rate is 0. -/
theorem getSessionStats_two_of_three (n1 n2 n3 c1 c2 c3 : String)
    (h12 : n1 ≠ n2) (h13 : n1 ≠ n3) (h23 : n2 ≠ n3)
    (e1 : pyEndsWith n1 ".md" = true) (e2 : pyEndsWith n2 ".md" = true)
    (e3 : pyEndsWith n3 ".md" = true)
    (m1 : containsSubstr c1 successMarker = true)
    (m2 : containsSubstr c2 successMarker = true)
    (m3 : containsSubstr c3 successMarker = false) :
    (getSessionStats [(n1, c1), (n2, c2), (n3, c3)]).total_sessions = 3 ∧
    (getSessionStats [(n1, c1), (n2, c2), (n3, c3)]).successful_sessions = 2 ∧
    (getSessionStats [(n1, c1), (n2, c2), (n3, c3)]).failed_sessions = 1 ∧
    (getSessionStats [(n1, c1), (n2, c2), (n3, c3)]).success_rate = (200 : ℚ) / 3 ∧
    (getSessionStats []).success_rate = 0 := by
  have hfilter :
      ((([(n1, c1), (n2, c2), (n3, c3)] : LogDir).map Prod.fst).filter
        (fun n => pyEndsWith n ".md")) = [n1, n2, n3] := by
    simp [e1, e2, e3]
  have hfiles : (listDebugSessions [(n1, c1), (n2, c2), (n3, c3)]).Perm [n1, n2, n3] := by
    unfold listDebugSessions sortRevStrings
    rw [hfilter]
    exact List.perm_insertionSort _ _
  have hr1 : readFileD [(n1, c1), (n2, c2), (n3, c3)] n1 = c1 := by
    simp [readFileD, List.find?]
  have hr2 : readFileD [(n1, c1), (n2, c2), (n3, c3)] n2 = c2 := by
    simp [readFileD, List.find?, h12]
  have hr3 : readFileD [(n1, c1), (n2, c2), (n3, c3)] n3 = c3 := by
    simp [readFileD, List.find?, h13, h23]
  have htot : (getSessionStats [(n1, c1), (n2, c2), (n3, c3)]).total_sessions = 3 := by
    show (listDebugSessions [(n1, c1), (n2, c2), (n3, c3)]).length = 3
    rw [hfiles.length_eq]
    rfl
  have hsucc :
      (getSessionStats [(n1, c1), (n2, c2), (n3, c3)]).successful_sessions = 2 := by
    show ((listDebugSessions [(n1, c1), (n2, c2), (n3, c3)]).filter
      (fun n => containsSubstr (readFileD [(n1, c1), (n2, c2), (n3, c3)] n)
        successMarker)).length = 2
    rw [(hfiles.filter _).length_eq]
    simp [List.filter, hr1, hr2, hr3, m1, m2, m3]
  refine ⟨htot, hsucc, ?_, ?_, rfl⟩
  · show (getSessionStats [(n1, c1), (n2, c2), (n3, c3)]).total_sessions -
      (getSessionStats [(n1, c1), (n2, c2), (n3, c3)]).successful_sessions = 1
    rw [htot, hsucc]
  · rw [getSessionStats_rate_eq, htot, hsucc, if_pos (by norm_num)]
    norm_num

/-- C8 witness: the concrete three-record directory. -/
theorem getSessionStats_two_of_three_witness :
    (getSessionStats [("p_f_9.md", "**Status:** SUCCESS"),
      ("p_g_8.md", "ok **Status:** SUCCESS done"), ("p_h_7.md", "no marker")]).total_sessions
      = 3 ∧
    (getSessionStats [("p_f_9.md", "**Status:** SUCCESS"),
      ("p_g_8.md", "ok **Status:** SUCCESS done"),
      ("p_h_7.md", "no marker")]).successful_sessions = 2 ∧
    (getSessionStats [("p_f_9.md", "**Status:** SUCCESS"),
      ("p_g_8.md", "ok **Status:** SUCCESS done"),
      ("p_h_7.md", "no marker")]).failed_sessions = 1 ∧
    (getSessionStats [("p_f_9.md", "**Status:** SUCCESS"),
      ("p_g_8.md", "ok **Status:** SUCCESS done"),
      ("p_h_7.md", "no marker")]).success_rate = (200 : ℚ) / 3 ∧
    (getSessionStats []).success_rate = 0 :=
  getSessionStats_two_of_three ("p_f_9.md") ("p_g_8.md") ("p_h_7.md")
    ("**Status:** SUCCESS") ("ok **Status:** SUCCESS done") ("no marker")
    (by decide) (by decide) (by decide) (by decide) (by decide) (by decide)
    (by decide) (by decide) (by decide)

end ReflexRuntime
